import Mathlib

/-!
A shallow embedding of `backend/onyx/connectors/web/connector.py` (the Onyx
web connector's crawl engine) together with proofs about its behaviour.

Conventions of the embedding:
* Python strings are Lean `String`s; character-level operations (`split`,
  `replace`, substring tests) are implemented on `List Char` and proved
  faithful to Python's semantics for the single-character separators the
  source uses.
* Network, rendering and file-system effects are supplied by oracle
  functions (indexed by the simulated clock and the URL), so one crawl of
  the generator `load_from_state` is a deterministic function of its
  oracles and a fuel bound.
* The `URLFrontier` class lives in `onyx/utils/url_frontier.py`, which is
  not part of the sources given; it is modelled from the specification's
  contract for it (see the doc comments below).
* `int()` parsing of `Retry-After` headers is abstracted to already-parsed
  `Option Nat` header values, and `strptime` parsing of `Last-Modified`
  is abstracted to carrying the raw header value; no claim depends on the
  inner behaviour of either parser.
-/

namespace WebConnector

/-- Is one character list an infix (contiguous substring) of another?
Mirrors Python's `needle in hay` on strings. -/
def listInfix (needle : List Char) : List Char → Bool
  | [] => needle.isEmpty
  | c :: rest => needle.isPrefixOf (c :: rest) || listInfix needle rest

/-- Python `needle in hay` for strings. -/
def strContains2 (hay needle : String) : Bool :=
  listInfix needle.data hay.data

/-- Python's `str.split(sep)` for a one-character separator: splits on every
occurrence, keeping empty pieces, and returns `[s]` when the separator is
absent (in particular the result is never the empty list). -/
def pySplit (sep : Char) : List Char → List (List Char)
  | [] => [[]]
  | c :: rest =>
    let r := pySplit sep rest
    if c = sep then [] :: r
    else
      match r with
      | [] => [[c]]
      | h :: t => (c :: h) :: t

/-- Source, line 278: `current_url.split(".")[-1] == "pdf"` — the dispatch
condition that routes a URL to the direct-GET (PDF) fetch path. -/
def isPdfUrl (url : String) : Bool :=
  (pySplit '.' url.data).getLastD [] = "pdf".data

/-- Source, line 303: `current_url.split("/")[-1]`, the semantic identifier
of a PDF document. -/
def lastSlashSegment (url : String) : String :=
  String.mk ((pySplit '/' url.data).getLastD [])

/-- The suffix of a list strictly after its final occurrence of `sep`
(the whole list when `sep` does not occur).  This is the specification's
phrase "the substring of the whole URL after its final '.'", defined
independently of `pySplit` so the two can be compared. -/
def afterLastSep (sep : Char) : List Char → List Char
  | [] => []
  | c :: rest =>
    if sep ∈ rest then afterLastSep sep rest
    else if c = sep then rest
    else c :: rest

/-! ## URL parsing (model of the parts of `urllib.parse` the source uses) -/

/-- Characters allowed in a URL scheme after the leading letter. -/
def isSchemeChar (c : Char) : Bool :=
  c.isAlphanum || c = '+' || c = '-' || c = '.'

/-- Split off a `scheme:` prefix as `urllib.parse.urlparse` does: the text
before the first `:` must be non-empty, start with a letter and consist of
scheme characters.  Returns the remainder after the colon when a scheme is
recognised. -/
def splitScheme (l : List Char) : Option (List Char × List Char) :=
  let before := l.takeWhile (fun c => c ≠ ':')
  let rest := l.drop before.length
  match rest with
  | ':' :: after =>
    match before with
    | [] => none
    | c0 :: cs => if c0.isAlpha && cs.all isSchemeChar then some (before, after) else none
  | _ => none

/-- The `netloc` component as computed by `urllib.parse.urlparse`: present
only when (after removing any `scheme:` prefix) the remainder starts with
`//`, and extends up to the next `/`, `?` or `#`. -/
def netlocOf (s : String) : String :=
  let rest :=
    match splitScheme s.data with
    | some (_, after) => after
    | none => s.data
  match rest with
  | '/' :: '/' :: r => String.mk (r.takeWhile (fun c => c ≠ '/' && c ≠ '?' && c ≠ '#'))
  | _ => ""

/-- The scheme component (empty string when absent). -/
def schemeOf (s : String) : String :=
  match splitScheme s.data with
  | some (sch, _) => String.mk sch
  | none => ""

/-- Source, `is_valid_url` (lines 93-98): a URL is valid when `urlparse`
yields a non-empty scheme and netloc. -/
def is_valid_url (url : String) : Bool :=
  schemeOf url ≠ "" && netlocOf url ≠ ""

/-- Everything of the URL up to and including the final `/` of its path
(used to resolve plain relative references). -/
def dirOfUrl (url : String) : String :=
  let l := url.data
  let pre :=
    match splitScheme l with
    | some (sch, after) =>
      match after with
      | '/' :: '/' :: r =>
        let net := r.takeWhile (fun c => c ≠ '/' && c ≠ '?' && c ≠ '#')
        sch ++ [':', '/', '/'] ++ net
      | _ => sch ++ [':']
    | none => []
  let path := l.drop pre.length
  let pathNoQuery := path.takeWhile (fun c => c ≠ '?' && c ≠ '#')
  let keep := (pathNoQuery.reverse.dropWhile (fun c => c ≠ '/')).reverse
  String.mk (pre ++ (if keep.isEmpty then ['/'] else keep))

/-- Model of `urllib.parse.urljoin` restricted to the reference shapes this
development exercises: absolute references are kept, network-path (`//…`)
references adopt the base's scheme, root-relative references adopt the
base's scheme and netloc, and other relative references replace the final
path segment of the base.  (RFC 3986 dot-segment normalisation is omitted;
no claim here depends on it.) -/
def urljoin (base rel : String) : String :=
  if rel = "" then base
  else if (splitScheme rel.data).isSome then rel
  else
    match rel.data with
    | '/' :: '/' :: _ => schemeOf base ++ ":" ++ rel
    | '/' :: _ => schemeOf base ++ "://" ++ netlocOf base ++ rel
    | _ => dirOfUrl base ++ rel

/-! ## Link extraction (`get_internal_links`, lines 101-122) -/

/-- Python `href.replace("\\", "/")`. -/
def replaceBackslashes (href : String) : String :=
  String.mk (href.data.map (fun c => if c = '\\' then '/' else c))

/-- Python `href.split("#")[0]`, applied when `should_ignore_pound` and the
href contains `#`; when there is no `#` the `takeWhile` is the identity, so
it is applied unconditionally here. -/
def stripFragment (href : String) : String :=
  String.mk (href.data.takeWhile (fun c => c ≠ '#'))

/-- The normalisation pipeline of `get_internal_links` applied to one raw
href value (backslash fix-up, fragment stripping, resolution of relative
references against the current page URL). -/
def normalizeHref (pageUrl : String) (shouldIgnorePound : Bool) (href : String) : String :=
  let href := replaceBackslashes href
  let href := if shouldIgnorePound then stripFragment href else href
  if is_valid_url href then href else urljoin pageUrl href

/-- Append an element to a list if absent — the effect of `set.add` on the
accumulated `internal_links` (Python set iteration order is modelled as
insertion order). -/
def insertIfAbsent (acc : List String) (x : String) : List String :=
  if acc.contains x then acc else acc ++ [x]

/-- One step of `get_internal_links`'s anchor loop: skip an absent or
empty href (Python's `if not href`), normalise it, and keep it when its
netloc equals the current page's netloc and it contains the base URL as a
substring. -/
def linkStep (base_url url : String) (shouldIgnorePound : Bool)
    (acc : List String) (h : Option String) : List String :=
  match h with
  | none => acc
  | some href =>
    if href = "" then acc
    else
      let resolved := normalizeHref url shouldIgnorePound href
      if netlocOf resolved = netlocOf url && strContains2 resolved base_url then
        insertIfAbsent acc resolved
      else acc

/-- Source, `get_internal_links` (lines 101-122): collect the anchor hrefs
of a page (`none` models an `<a>` without an href), normalise each, and
keep those whose netloc equals the current page's netloc and that contain
the base URL as a substring. -/
def get_internal_links (base_url url : String) (hrefs : List (Option String))
    (shouldIgnorePound : Bool) : List String :=
  hrefs.foldl (linkStep base_url url shouldIgnorePound) []

/-! ## The URL frontier

The class `URLFrontier` is imported from `onyx/utils/url_frontier.py`,
which is not among the given sources; it is modelled from the spec. -/

/-- Modelled from the spec: a frontier entry is
`{ url, earliestVisitTime }`; `earliestVisitTime` is pushed forward on a
rate-limit signal. -/
structure FrontierEntry where
  url : String
  earliestVisitTime : Nat
  deriving DecidableEq, Repr

/-- Modelled from the spec: the URL Frontier owns the to-visit queue and
the visited set (its source file `onyx/utils/url_frontier.py` is not under
the given sources).  Time is a simulated clock in abstract ticks. -/
structure URLFrontier where
  queue : List FrontierEntry
  visited : List String
  deriving DecidableEq, Repr

/-- Modelled from the spec: `add(url)` enqueues only if not already visited
and not already queued (idempotent).  URL normalisation beyond what the
caller already did is not modelled. -/
def URLFrontier.add_url (f : URLFrontier) (url : String) (now : Nat) : URLFrontier :=
  if f.visited.contains url || f.queue.any (fun e => e.url = url) then f
  else { f with queue := f.queue ++ [⟨url, now⟩] }

/-- Modelled from the spec: `hasNext` reports pending work; it must be true
whenever the queue is non-empty (a rate-limited-only queue is "poll again",
not exhaustion, as required by `next()` returning none in that case). -/
def URLFrontier.has_next_url (f : URLFrontier) : Bool :=
  !f.queue.isEmpty

/-- Remove the first entry whose earliest-visit-time has passed, keeping
FIFO order among eligible entries. -/
def dequeueEligible (now : Nat) : List FrontierEntry → Option (FrontierEntry × List FrontierEntry)
  | [] => none
  | e :: rest =>
    if e.earliestVisitTime ≤ now then some (e, rest)
    else
      match dequeueEligible now rest with
      | some (x, q) => some (x, e :: q)
      | none => none

/-- Modelled from the spec: `next()` dequeues and returns the earliest
eligible entry, marking it visited; returns none when every queued entry is
still rate-limited. -/
def URLFrontier.get_next_url (f : URLFrontier) (now : Nat) : Option (String × URLFrontier) :=
  match dequeueEligible now f.queue with
  | some (e, q) => some (e.url, { queue := q, visited := f.visited ++ [e.url] })
  | none => none

/-- Modelled from the spec: `handleRateLimit(url, retryAfter)` re-enqueues
`url` — which is treated as not yet visited — with
`earliestVisitTime = now + retryAfter`, so the URL is revisited later
instead of dropped. -/
def URLFrontier.handle_ratelimit (f : URLFrontier) (url : String) (retryAfter now : Nat) :
    URLFrontier :=
  { queue := f.queue.filter (fun e => e.url ≠ url) ++ [⟨url, now + retryAfter⟩],
    visited := f.visited.filter (fun v => v ≠ url) }

/-- A URL the frontier already knows about: visited or queued. -/
def URLFrontier.knows (f : URLFrontier) (url : String) : Bool :=
  f.visited.contains url || f.queue.any (fun e => e.url = url)

/-! ## Documents -/

/-- Source: `onyx.connectors.models.Section` as used here — a link plus
text. -/
structure Section where
  link : String
  text : String
  deriving DecidableEq, Repr

/-- Source: the fields of `onyx.connectors.models.Document` that this
connector populates.  `doc_updated_at` abstracts
`_get_datetime_from_last_modified_header` (lines 190-196) to the raw
`Last-Modified` header value: the `strptime` parse is outside every claim,
and `None` headers yield `none` exactly as in the source. -/
structure Document where
  id : String
  sections : List Section
  source : String
  semantic_identifier : String
  metadata : List (String × String)
  doc_updated_at : Option String
  deriving DecidableEq, Repr

/-- Lines 298-311: the Document built for a successfully fetched PDF URL. -/
def pdfDocument (url text : String) (metadata : List (String × String))
    (lastModified : Option String) : Document :=
  { id := url,
    sections := [⟨url, text⟩],
    source := "web",
    semantic_identifier := lastSlashSegment url,
    metadata := metadata,
    doc_updated_at :=
      match lastModified with
      | some lm => some lm
      | none => none }

/-- Lines 352-367: the Document built for a successfully rendered page.
`semantic_identifier` is `parsed_html.title or current_url` — Python's `or`
falls back on an absent *or empty* title. -/
def htmlDocument (url cleanedText : String) (title : Option String)
    (lastModified : Option String) : Document :=
  { id := url,
    sections := [⟨url, cleanedText⟩],
    source := "web",
    semantic_identifier :=
      match title with
      | some t => if t = "" then url else t
      | none => url,
    metadata := [],
    doc_updated_at :=
      match lastModified with
      | some lm => some lm
      | none => none }

/-! ## The crawl loop (`WebConnector.load_from_state`, lines 245-392)

External effects are oracles indexed by the simulated clock and the URL:
`check_internet_connection`, the direct `requests.get` for PDFs, and the
rendered playwright fetch.  Exceptions anywhere inside the `try` block are
modelled at the point the oracle is consulted; no state is mutated between
the real raise points and the modelled ones except the mutations the
outcome itself carries. -/

/-- Outcome of `check_internet_connection` (lines 58-90): success, a 429
(which calls `frontier.handle_ratelimit` and then raises), or any other
raised fault carrying its message. -/
inductive ProbeOutcome where
  | ok : ProbeOutcome
  | rateLimit (retryAfter : Nat) : ProbeOutcome
  | fail (msg : String) : ProbeOutcome

/-- Outcome of the direct `requests.get` on a PDF URL plus
`read_pdf_file` (lines 280-296): a response with status, optional
(pre-parsed) `Retry-After`, optional `Last-Modified`, extracted text and
metadata — or an exception. -/
inductive PdfGetOutcome where
  | resp (status : Nat) (retryAfter : Option Nat) (lastModified : Option String)
      (text : String) (metadata : List (String × String)) : PdfGetOutcome
  | exn (msg : String) : PdfGetOutcome

/-- Outcome of the rendered fetch (lines 314-350): `page.goto` returning
nothing, a full response (status, optional pre-parsed `Retry-After`,
optional `Last-Modified`, final URL after redirects, the anchor hrefs of
the rendered HTML, and the cleaned text/title `web_html_cleanup` would
produce) — or an exception. -/
inductive RenderOutcome where
  | noResponse : RenderOutcome
  | resp (status : Nat) (retryAfter : Option Nat) (lastModified : Option String)
      (finalUrl : String) (hrefs : List (Option String))
      (cleanedText : String) (title : Option String) : RenderOutcome
  | exn (msg : String) : RenderOutcome

/-- The mutable state of one `load_from_state` invocation.  `yielded`
records the batches emitted so far; `playwrightOpen` tracks whether a
rendering session is currently open; `now` is the simulated clock (one
tick per loop iteration). -/
structure CrawlState where
  frontier : URLFrontier
  doc_batch : List Document
  at_least_one_doc : Bool
  last_error : Option String
  playwrightOpen : Bool
  restart_playwright : Bool
  now : Nat
  yielded : List (List Document)
  deriving DecidableEq, Repr

/-- Result of one execution of the `try` block (lines 272-369): an
exception with the state as mutated up to the raise, a `continue`
statement, or falling through to the batch-size check (which only the
rendered-success path reaches). -/
inductive TryResult where
  | exn (msg : String) (st : CrawlState) : TryResult
  | cont (st : CrawlState) : TryResult
  | success (st : CrawlState) : TryResult
  deriving DecidableEq, Repr

/-- The crawl state carried by a `TryResult`. -/
def TryResult.state : TryResult → CrawlState
  | .exn _ st => st
  | .cont st => st
  | .success st => st

/-- Did the `try` block end in a `continue` statement? -/
def TryResult.isCont : TryResult → Bool
  | .cont _ => true
  | _ => false

/-- Structural helper for `leadingDigit`: the fuel bounds the number of
divisions by ten (any fuel at least the number itself is enough). -/
def leadingDigitAux : Nat → Nat → Nat
  | 0, n => n
  | fuel + 1, n => if n < 10 then n else leadingDigitAux fuel (n / 10)

/-- The leading decimal digit of a status code —
`str(page_response.status)[0]` for the `in ("4", "5")` test on line 341. -/
def leadingDigit (n : Nat) : Nat :=
  leadingDigitAux n n

/-- Lines 274-276: restart the rendering session if one was scheduled. -/
def applyRestart (st : CrawlState) : CrawlState :=
  if st.restart_playwright then
    { st with playwrightOpen := true, restart_playwright := false }
  else st

/-- Lines 336-339: in recursive mode, submit every extracted internal link
to the frontier. -/
def addLinks (recursive : Bool) (base_url url : String)
    (hrefs : List (Option String)) (st : CrawlState) : CrawlState :=
  let linked :=
    (get_internal_links base_url url hrefs true).foldl
      (fun f link => f.add_url link st.now) st.frontier
  if recursive then { st with frontier := linked } else st

/-- The `try` block of the crawl loop, lines 272-369, for one URL.
`recursive` and `base_url` come from the connector configuration;
`bodyProbe`/`bodyPdf`/`bodyRender` are this iteration's oracle outcomes. -/
def tryBody (recursive : Bool) (base_url : String)
    (bodyProbe : ProbeOutcome) (bodyPdf : PdfGetOutcome) (bodyRender : RenderOutcome)
    (url : String) (st : CrawlState) : TryResult :=
  match bodyProbe with
  | .rateLimit r =>
    .exn ("Rate limited for " ++ url ++ ". Retry after " ++ toString r ++ " seconds")
      { st with frontier := st.frontier.handle_ratelimit url r st.now }
  | .fail msg => .exn msg st
  | .ok =>
    let st := applyRestart st
    if isPdfUrl url then
      match bodyPdf with
      | .exn msg => .exn msg st
      | .resp status retryAfter lastModified text metadata =>
        if status = 429 then
          .cont { st with
            frontier := st.frontier.handle_ratelimit url (retryAfter.getD 5) st.now }
        else if status ≠ 200 then
          .cont { st with
            last_error := some ("Failed to fetch '" ++ url ++ "': " ++ toString status) }
        else
          .cont { st with
            doc_batch := st.doc_batch ++ [pdfDocument url text metadata lastModified] }
    else
      match bodyRender with
      | .exn msg => .exn msg st
      | .noResponse =>
        .cont { st with last_error := some ("Failed to fetch '" ++ url ++ "'") }
      | .resp status retryAfter lastModified finalUrl hrefs cleanedText title =>
        if finalUrl ≠ url then
          .cont { st with frontier := st.frontier.add_url finalUrl st.now }
        else
          let st := addLinks recursive base_url url hrefs st
          if leadingDigit status = 4 || leadingDigit status = 5 then
            let st := { st with
              last_error := some ("Skipped indexing " ++ url ++ " due to HTTP "
                ++ toString status ++ " response") }
            if status = 429 then
              .cont { st with
                frontier := st.frontier.handle_ratelimit url (retryAfter.getD 5) st.now }
            else .cont st
          else
            .success { st with
              doc_batch := st.doc_batch ++ [htmlDocument url cleanedText title lastModified] }

/-- Lines 377-382: if the batch reached the configured maximum, tear the
rendering session down, schedule a restart, mark at-least-one-document,
emit the batch and start a new empty one. -/
def flushIfFull (batch_size : Nat) (st : CrawlState) : CrawlState :=
  if batch_size ≤ st.doc_batch.length then
    { st with
      playwrightOpen := false,
      restart_playwright := true,
      at_least_one_doc := true,
      yielded := st.yielded ++ [st.doc_batch],
      doc_batch := [] }
  else st

/-- One full iteration of the `while` body after a URL was dequeued: run
the `try` block, then the `except` handler (lines 370-375) or the
batch-size check (lines 377-382, reached only by the rendered-success
fall-through). -/
def iterBody (recursive : Bool) (base_url : String) (batch_size : Nat)
    (bodyProbe : ProbeOutcome) (bodyPdf : PdfGetOutcome) (bodyRender : RenderOutcome)
    (url : String) (st : CrawlState) : CrawlState :=
  match tryBody recursive base_url bodyProbe bodyPdf bodyRender url st with
  | .exn msg st' =>
    { st' with
      last_error := some ("Failed to fetch '" ++ url ++ "': " ++ msg),
      playwrightOpen := false,
      restart_playwright := true }
  | .cont st' => st'
  | .success st' => flushIfFull batch_size st'

/-- Result of a whole crawl: the generator finished normally after
emitting `batches`, raised a fatal error, or the fuel bound was reached
(the real loop can run forever on rate-limit/redirect cycles). -/
inductive CrawlResult where
  | finished (batches : List (List Document)) (st : CrawlState) : CrawlResult
  | fatal (msg : String) (st : CrawlState) : CrawlResult
  | outOfFuel (st : CrawlState) : CrawlResult
  deriving DecidableEq, Repr

/-- Lines 384-392: the final flush of a non-empty batch and the terminal
zero-documents check. -/
def finishCrawl (st : CrawlState) : CrawlResult :=
  let st :=
    if st.doc_batch.isEmpty then st
    else
      { st with
        playwrightOpen := false,
        at_least_one_doc := true,
        yielded := st.yielded ++ [st.doc_batch],
        doc_batch := [] }
  if st.at_least_one_doc then .finished st.yielded st
  else
    match st.last_error with
    | some e => .fatal e st
    | none => .fatal "No valid pages found." st

/-- The `while frontier.has_next_url()` loop (lines 264-382), driven by
fuel.  Each iteration advances the simulated clock by one tick; a dequeue
returning none (all entries rate-limited) just loops, as the source's
`if not current_url: continue`. -/
def crawlLoop (recursive : Bool) (base_url : String) (batch_size : Nat)
    (probe : Nat → String → ProbeOutcome)
    (pdfGet : Nat → String → PdfGetOutcome)
    (render : Nat → String → RenderOutcome) :
    Nat → CrawlState → CrawlResult
  | 0, st => .outOfFuel st
  | fuel + 1, st =>
    if st.frontier.has_next_url then
      match st.frontier.get_next_url (st.now + 1) with
      | none => crawlLoop recursive base_url batch_size probe pdfGet render fuel
          { st with now := st.now + 1 }
      | some (url, f') =>
        crawlLoop recursive base_url batch_size probe pdfGet render fuel
          (iterBody recursive base_url batch_size
            (probe (st.now + 1) url) (pdfGet (st.now + 1) url) (render (st.now + 1) url) url
            { st with frontier := f', now := st.now + 1 })
    else finishCrawl st

/-- The crawl state at entry of the loop: the frontier seeded with the
to-visit list, one rendering session open (line 262 `start_playwright`). -/
def initState (to_visit : List String) : CrawlState :=
  { frontier := to_visit.foldl (fun f u => f.add_url u 0) ⟨[], []⟩,
    doc_batch := [],
    at_least_one_doc := false,
    last_error := none,
    playwrightOpen := true,
    restart_playwright := false,
    now := 0,
    yielded := [] }

/-- Source, `load_from_state` (lines 245-392): raise `"No URLs to visit"`
on an empty to-visit list (before the frontier, the base URL or the
rendering session exist), otherwise seed the frontier, open a rendering
session and run the crawl loop; `base_url = to_visit_list[0]`. -/
def load_from_state (recursive : Bool) (batch_size : Nat) (to_visit : List String)
    (probe : Nat → String → ProbeOutcome)
    (pdfGet : Nat → String → PdfGetOutcome)
    (render : Nat → String → RenderOutcome)
    (fuel : Nat) : CrawlResult :=
  if to_visit.isEmpty then
    .fatal "No URLs to visit"
      { frontier := ⟨[], []⟩, doc_batch := [], at_least_one_doc := false,
        last_error := none, playwrightOpen := false, restart_playwright := false,
        now := 0, yielded := [] }
  else
    crawlLoop recursive (to_visit.headD "") batch_size probe pdfGet render fuel
      (initState to_visit)

/-- Source, line 178-181 `_ensure_valid_url`. -/
def ensure_valid_url (url : String) : String :=
  if strContains2 url "://" then url else "https://" ++ url

/-- Source, `WebConnector.__init__` (lines 200-238): the mode dispatch.
The sitemap and upload URL lists come from external collaborators
(`extract_urls_from_sitemap`, `_read_urls_file`) and are supplied as
parameters.  Returns `(recursive, to_visit_list)` or the constructor's
raised error; the error string of line 236-237 is the concatenation of the
two adjacent string literals. -/
def webConnectorInit (base_url web_connector_type : String)
    (sitemap_urls file_urls : List String) : Except String (Bool × List String) :=
  if web_connector_type = "recursive" then .ok (true, [ensure_valid_url base_url])
  else if web_connector_type = "single" then .ok (false, [ensure_valid_url base_url])
  else if web_connector_type = "sitemap" then .ok (false, sitemap_urls)
  else if web_connector_type = "upload" then .ok (false, file_urls)
  else .error "Invalid Web Connector Config, must choose a valid type between: "

/-- The batches a crawl produced. -/
def CrawlResult.batches : CrawlResult → List (List Document)
  | .finished bs _ => bs
  | .fatal _ st => st.yielded
  | .outOfFuel st => st.yielded

/-- The final crawl state. -/
def CrawlResult.state : CrawlResult → CrawlState
  | .finished _ st => st
  | .fatal _ st => st
  | .outOfFuel st => st

/-- Did the crawl raise a fatal error? -/
def CrawlResult.isFatal : CrawlResult → Bool
  | .fatal _ _ => true
  | _ => false

/-- The fatal error message, if any. -/
def CrawlResult.fatalMsg : CrawlResult → Option String
  | .fatal e _ => some e
  | _ => none

/-! ## General lemmas about the embedding -/

/-- `pySplit` never returns the empty list. -/
theorem pySplit_ne_nil (sep : Char) (l : List Char) : pySplit sep l ≠ [] := by
  cases l with
  | nil => simp [pySplit]
  | cons c rest =>
    simp only [pySplit]
    split
    · simp
    · split <;> simp

theorem afterLastSep_of_not_mem (sep : Char) (l : List Char) (h : sep ∉ l) :
    afterLastSep sep l = l := by
  cases l with
  | nil => rfl
  | cons c rest =>
    simp only [List.mem_cons, not_or] at h
    have hcs : ¬c = sep := fun e => h.1 e.symm
    simp [afterLastSep, hcs, h.2]

/-- When the separator is absent, `pySplit` returns the singleton `[l]`. -/
theorem pySplit_of_not_mem (sep : Char) (l : List Char) (h : sep ∉ l) :
    pySplit sep l = [l] := by
  induction l with
  | nil => rfl
  | cons c rest ih =>
    simp only [List.mem_cons, not_or] at h
    have hcs : ¬c = sep := fun e => h.1 e.symm
    simp [pySplit, hcs, ih h.2]

/-- When the separator occurs in the list, `pySplit` has at least two pieces. -/
theorem pySplit_length_of_mem (sep : Char) (l : List Char) (h : sep ∈ l) :
    2 ≤ (pySplit sep l).length := by
  induction l with
  | nil => cases h
  | cons c rest ih =>
    by_cases hcs : c = sep
    · have := List.length_pos.mpr (pySplit_ne_nil sep rest)
      simp only [pySplit, if_pos hcs, List.length_cons]
      omega
    · have hr : sep ∈ rest := by
        rcases List.mem_cons.mp h with hc | hr
        · exact absurd hc.symm hcs
        · exact hr
      have h2 := ih hr
      rcases hps : pySplit sep rest with _ | ⟨hh, tt⟩
      · exact absurd hps (pySplit_ne_nil sep rest)
      · rw [hps] at h2
        simp only [pySplit, if_neg hcs, hps]
        simpa using h2

/-- The last piece of Python's `split(sep)` is exactly the suffix after the
final separator (the whole string when the separator is absent). -/
theorem pySplit_getLast_eq_afterLastSep (sep : Char) (l : List Char) :
    (pySplit sep l).getLastD [] = afterLastSep sep l := by
  induction l with
  | nil => rfl
  | cons c rest ih =>
    by_cases hcs : c = sep
    · subst hcs
      have lhs : (pySplit c (c :: rest)).getLastD [] = (pySplit c rest).getLastD [] := by
        rcases hps : pySplit c rest with _ | ⟨hh, tt⟩
        · exact absurd hps (pySplit_ne_nil c rest)
        · simp [pySplit, hps, List.getLastD_cons]
      rw [lhs, ih]
      by_cases hm : c ∈ rest
      · simp [afterLastSep, hm]
      · simp [afterLastSep, hm, afterLastSep_of_not_mem c rest hm]
    · by_cases hm : sep ∈ rest
      · rcases hps : pySplit sep rest with _ | ⟨hh, tt⟩
        · exact absurd hps (pySplit_ne_nil sep rest)
        rcases tt with _ | ⟨t1, ts⟩
        · have h2 := pySplit_length_of_mem sep rest hm
          rw [hps] at h2; simp at h2
        · have lhs : (pySplit sep (c :: rest)).getLastD [] = (hh :: t1 :: ts).getLastD [] := by
            simp only [pySplit, if_neg hcs, hps]
            simp [List.getLastD_cons]
          rw [hps] at ih
          rw [lhs, ih]
          simp [afterLastSep, hm]
      · have hnone : sep ∉ c :: rest := by
          simp only [List.mem_cons, not_or]
          exact ⟨fun e => hcs e.symm, hm⟩
        rw [pySplit_of_not_mem sep _ hnone, afterLastSep_of_not_mem sep _ hnone]
        simp

@[simp] theorem applyRestart_frontier (st : CrawlState) :
    (applyRestart st).frontier = st.frontier := by
  unfold applyRestart; split <;> rfl

@[simp] theorem applyRestart_doc_batch (st : CrawlState) :
    (applyRestart st).doc_batch = st.doc_batch := by
  unfold applyRestart; split <;> rfl

@[simp] theorem applyRestart_at_least_one_doc (st : CrawlState) :
    (applyRestart st).at_least_one_doc = st.at_least_one_doc := by
  unfold applyRestart; split <;> rfl

@[simp] theorem applyRestart_last_error (st : CrawlState) :
    (applyRestart st).last_error = st.last_error := by
  unfold applyRestart; split <;> rfl

@[simp] theorem applyRestart_now (st : CrawlState) :
    (applyRestart st).now = st.now := by
  unfold applyRestart; split <;> rfl

@[simp] theorem applyRestart_yielded (st : CrawlState) :
    (applyRestart st).yielded = st.yielded := by
  unfold applyRestart; split <;> rfl

@[simp] theorem addLinks_doc_batch (recursive : Bool) (base_url url : String)
    (hrefs : List (Option String)) (st : CrawlState) :
    (addLinks recursive base_url url hrefs st).doc_batch = st.doc_batch := by
  unfold addLinks; split <;> rfl

@[simp] theorem addLinks_at_least_one_doc (recursive : Bool) (base_url url : String)
    (hrefs : List (Option String)) (st : CrawlState) :
    (addLinks recursive base_url url hrefs st).at_least_one_doc = st.at_least_one_doc := by
  unfold addLinks; split <;> rfl

@[simp] theorem addLinks_last_error (recursive : Bool) (base_url url : String)
    (hrefs : List (Option String)) (st : CrawlState) :
    (addLinks recursive base_url url hrefs st).last_error = st.last_error := by
  unfold addLinks; split <;> rfl

@[simp] theorem addLinks_now (recursive : Bool) (base_url url : String)
    (hrefs : List (Option String)) (st : CrawlState) :
    (addLinks recursive base_url url hrefs st).now = st.now := by
  unfold addLinks; split <;> rfl

@[simp] theorem addLinks_yielded (recursive : Bool) (base_url url : String)
    (hrefs : List (Option String)) (st : CrawlState) :
    (addLinks recursive base_url url hrefs st).yielded = st.yielded := by
  unfold addLinks; split <;> rfl

@[simp] theorem addLinks_playwrightOpen (recursive : Bool) (base_url url : String)
    (hrefs : List (Option String)) (st : CrawlState) :
    (addLinks recursive base_url url hrefs st).playwrightOpen = st.playwrightOpen := by
  unfold addLinks; split <;> rfl

@[simp] theorem addLinks_restart_playwright (recursive : Bool) (base_url url : String)
    (hrefs : List (Option String)) (st : CrawlState) :
    (addLinks recursive base_url url hrefs st).restart_playwright
      = st.restart_playwright := by
  unfold addLinks; split <;> rfl

/-- `tryBody` never changes `at_least_one_doc` or `yielded`. -/
theorem tryBody_preserves (recursive : Bool) (base_url : String)
    (bp : ProbeOutcome) (bpd : PdfGetOutcome) (br : RenderOutcome)
    (url : String) (st : CrawlState) :
    ((tryBody recursive base_url bp bpd br url st).state).at_least_one_doc
        = st.at_least_one_doc
    ∧ ((tryBody recursive base_url bp bpd br url st).state).yielded = st.yielded := by
  cases bp <;> cases bpd <;> cases br <;> simp only [tryBody] <;> repeat' split
  all_goals first
    | contradiction
    | simp [TryResult.state]

/-- `iterBody` preserves the linkage between the `at_least_one_doc` flag
and an empty emission history. -/
theorem iterBody_inv (recursive : Bool) (base_url : String) (batch_size : Nat)
    (bp : ProbeOutcome) (bpd : PdfGetOutcome) (br : RenderOutcome)
    (url : String) (st : CrawlState)
    (hP : st.at_least_one_doc = false ↔ st.yielded = []) :
    (iterBody recursive base_url batch_size bp bpd br url st).at_least_one_doc = false
      ↔ (iterBody recursive base_url batch_size bp bpd br url st).yielded = [] := by
  have hpres := tryBody_preserves recursive base_url bp bpd br url st
  unfold iterBody
  rcases h : tryBody recursive base_url bp bpd br url st with ⟨msg, st'⟩ | st' | st' <;>
    rw [h] at hpres <;> simp only [TryResult.state] at hpres
  · simpa [hpres.1, hpres.2] using hP
  · simpa [hpres.1, hpres.2] using hP
  · by_cases hbs : batch_size ≤ st'.doc_batch.length
    · simp [flushIfFull, hbs]
    · simpa [flushIfFull, hbs, hpres.1, hpres.2] using hP

/-- `finishCrawl` raises only with an empty emission history and the
recorded message, and finishes only with at least one batch. -/
theorem finishCrawl_spec (st : CrawlState)
    (hP : st.at_least_one_doc = false ↔ st.yielded = []) :
    (∀ msg st', finishCrawl st = .fatal msg st' →
        st'.yielded = [] ∧ msg = st'.last_error.getD "No valid pages found.")
    ∧ (∀ bs st', finishCrawl st = .finished bs st' → bs ≠ []) := by
  unfold finishCrawl
  by_cases hempty : st.doc_batch.isEmpty = true
  · rw [if_pos hempty]
    by_cases halod : st.at_least_one_doc = true
    · rw [if_pos halod]
      constructor
      · intro msg st' h
        cases h
      · intro bs st' h
        cases h
        intro hbs
        have hfalse := hP.mpr hbs
        rw [hfalse] at halod
        cases halod
    · have halod' : st.at_least_one_doc = false := by
        cases hb : st.at_least_one_doc
        · rfl
        · exact absurd hb halod
      rw [if_neg halod]
      constructor
      · intro msg st' h
        rcases hle : st.last_error with _ | e
        · rw [hle] at h
          cases h
          refine ⟨hP.mp halod', ?_⟩
          rw [hle]
          rfl
        · rw [hle] at h
          cases h
          refine ⟨hP.mp halod', ?_⟩
          rw [hle]
          rfl
      · intro bs st' h
        rcases hle : st.last_error with _ | e <;> rw [hle] at h <;> cases h
  · rw [if_neg hempty]
    rw [if_pos rfl]
    constructor
    · intro msg st' h
      cases h
    · intro bs st' h
      cases h
      simp

/-- Main loop invariant behind C1: a fatal result carries an empty emission
history and the last recorded fault (or the generic message), and a normal
finish carries at least one batch. -/
theorem crawlLoop_terminal (recursive : Bool) (base_url : String) (batch_size : Nat)
    (probe : Nat → String → ProbeOutcome) (pdfGet : Nat → String → PdfGetOutcome)
    (render : Nat → String → RenderOutcome) :
    ∀ (fuel : Nat) (st : CrawlState),
      (st.at_least_one_doc = false ↔ st.yielded = []) →
      (∀ msg st', crawlLoop recursive base_url batch_size probe pdfGet render fuel st
            = .fatal msg st' →
          st'.yielded = [] ∧ msg = st'.last_error.getD "No valid pages found.")
      ∧ (∀ bs st', crawlLoop recursive base_url batch_size probe pdfGet render fuel st
            = .finished bs st' → bs ≠ []) := by
  intro fuel
  induction fuel with
  | zero =>
    intro st hP
    constructor
    · intro msg st' h; cases h
    · intro bs st' h; cases h
  | succ fuel ih =>
    intro st hP
    simp only [crawlLoop]
    split
    · split
      · exact ih _ hP
      · exact ih _ (iterBody_inv _ _ _ _ _ _ _ _ hP)
    · exact finishCrawl_spec st hP

/-- C1: if `load_from_state` never yields a batch it raises a fatal error
carrying the last recorded per-URL fault (or the generic message when no
fault was recorded); if it yielded at least one batch, no terminal error is
raised. -/
theorem c1_zero_documents_terminal_error (recursive : Bool) (batch_size : Nat)
    (to_visit : List String)
    (probe : Nat → String → ProbeOutcome) (pdfGet : Nat → String → PdfGetOutcome)
    (render : Nat → String → RenderOutcome) (fuel : Nat)
    (hnv : to_visit ≠ []) :
    (∀ msg st',
        load_from_state recursive batch_size to_visit probe pdfGet render fuel
            = .fatal msg st' →
        st'.yielded = [] ∧ msg = st'.last_error.getD "No valid pages found.")
    ∧ (∀ bs st',
        load_from_state recursive batch_size to_visit probe pdfGet render fuel
            = .finished bs st' →
        bs ≠ []) := by
  unfold load_from_state
  rw [if_neg (by simpa using hnv)]
  exact crawlLoop_terminal recursive (to_visit.headD "") batch_size probe pdfGet render
    fuel (initState to_visit) (by simp [initState])

theorem c1_witness :
    (["https://a.com/x"] : List String) ≠ [] ∧
    (∀ msg st',
        load_from_state false 10 ["https://a.com/x"] (fun _ _ => .ok)
            (fun _ _ => .exn "u")
            (fun _ u => .resp 500 none none u [] "t" none) 3
            = .fatal msg st' →
        st'.yielded = [] ∧ msg = st'.last_error.getD "No valid pages found.") := by
  refine ⟨by decide, ?_⟩
  exact (c1_zero_documents_terminal_error false 10 ["https://a.com/x"] (fun _ _ => .ok)
    (fun _ _ => .exn "u") (fun _ u => .resp 500 none none u [] "t" none) 3
    (by decide)).1

/-- C10: a URL takes the direct-GET (PDF) path iff the text after its final
dot is exactly `"pdf"`; a query string after the extension or an uppercase
`.PDF` suffix therefore takes the rendered path. -/
theorem c10_pdf_dispatch (url : String) :
    (isPdfUrl url = true ↔ afterLastSep '.' url.data = "pdf".data)
    ∧ isPdfUrl "https://a.com/x.pdf?v=1" = false
    ∧ isPdfUrl "https://a.com/x.PDF" = false := by
  refine ⟨⟨fun h => ?_, fun h => ?_⟩, by decide, by decide⟩
  · rw [← pySplit_getLast_eq_afterLastSep]
    exact of_decide_eq_true h
  · refine decide_eq_true ?_
    rw [pySplit_getLast_eq_afterLastSep]
    exact h

/-- C9: an invalid mode selector raises at construction; an empty to-visit
list raises `"No URLs to visit"` immediately — for every oracle, so before
any URL is fetched, with nothing visited and nothing yielded. -/
theorem c9_empty_or_invalid_config (base t : String) (su fu : List String)
    (recursive : Bool) (batch_size fuel : Nat)
    (probe : Nat → String → ProbeOutcome) (pdfGet : Nat → String → PdfGetOutcome)
    (render : Nat → String → RenderOutcome)
    (h1 : t ≠ "recursive") (h2 : t ≠ "single") (h3 : t ≠ "sitemap") (h4 : t ≠ "upload") :
    webConnectorInit base t su fu
        = .error "Invalid Web Connector Config, must choose a valid type between: "
    ∧ load_from_state recursive batch_size [] probe pdfGet render fuel
        = .fatal "No URLs to visit"
            ⟨⟨[], []⟩, [], false, none, false, false, 0, []⟩ := by
  constructor
  · simp [webConnectorInit, h1, h2, h3, h4]
  · rfl

theorem c9_witness :
    ("bogus" : String) ≠ "recursive" ∧ ("bogus" : String) ≠ "single"
    ∧ ("bogus" : String) ≠ "sitemap" ∧ ("bogus" : String) ≠ "upload"
    ∧ webConnectorInit "https://a.com" "bogus" [] []
        = .error "Invalid Web Connector Config, must choose a valid type between: "
    ∧ load_from_state true 7 [] (fun _ _ => .ok) (fun _ _ => .exn "e")
        (fun _ _ => .exn "e") 5
        = .fatal "No URLs to visit"
            ⟨⟨[], []⟩, [], false, none, false, false, 0, []⟩ := by
  have h := c9_empty_or_invalid_config "https://a.com" "bogus" [] [] true 7 5
    (fun _ _ => .ok) (fun _ _ => .exn "e") (fun _ _ => .exn "e")
    (by decide) (by decide) (by decide) (by decide)
  exact ⟨by decide, by decide, by decide, by decide, h.1, h.2⟩

/-- Adding a URL the frontier does not know puts it at the tail of the
queue. -/
theorem add_url_mem_of_not_knows (f : URLFrontier) (url : String) (now : Nat)
    (h : f.knows url = false) :
    FrontierEntry.mk url now ∈ (f.add_url url now).queue := by
  unfold URLFrontier.knows at h
  unfold URLFrontier.add_url
  split
  · rename_i hc
    rw [h] at hc
    cases hc
  · simp

/-- A rate-limit signal re-enqueues the URL with the pushed-forward
earliest-visit-time and clears its visited mark. -/
theorem handle_ratelimit_requeues (f : URLFrontier) (url : String) (r now : Nat) :
    FrontierEntry.mk url (now + r) ∈ (f.handle_ratelimit url r now).queue
    ∧ url ∉ (f.handle_ratelimit url r now).visited := by
  unfold URLFrontier.handle_ratelimit
  constructor
  · simp
  · simp [List.mem_filter]

/-- C4: a rendered fetch whose final URL differs from the requested URL is
abandoned: the `try` block ends in `continue`, no Document is appended, and
the final URL is submitted to the frontier (hence queued for a later visit
whenever it is not already known). -/
theorem c4_redirect_mismatch (recursive : Bool) (base_url url finalUrl : String)
    (bpd : PdfGetOutcome) (status : Nat) (retryAfter : Option Nat)
    (lastModified : Option String) (hrefs : List (Option String))
    (cleanedText : String) (title : Option String) (st : CrawlState)
    (hpdf : isPdfUrl url = false) (hne : finalUrl ≠ url) :
    (tryBody recursive base_url .ok bpd
        (.resp status retryAfter lastModified finalUrl hrefs cleanedText title)
        url st).isCont = true
    ∧ ((tryBody recursive base_url .ok bpd
        (.resp status retryAfter lastModified finalUrl hrefs cleanedText title)
        url st).state).doc_batch = st.doc_batch
    ∧ ((tryBody recursive base_url .ok bpd
        (.resp status retryAfter lastModified finalUrl hrefs cleanedText title)
        url st).state).yielded = st.yielded
    ∧ ((tryBody recursive base_url .ok bpd
        (.resp status retryAfter lastModified finalUrl hrefs cleanedText title)
        url st).state).frontier = st.frontier.add_url finalUrl st.now
    ∧ (st.frontier.knows finalUrl = false →
        FrontierEntry.mk finalUrl st.now ∈ ((tryBody recursive base_url .ok bpd
          (.resp status retryAfter lastModified finalUrl hrefs cleanedText title)
          url st).state).frontier.queue) := by
  have hred : tryBody recursive base_url .ok bpd
      (.resp status retryAfter lastModified finalUrl hrefs cleanedText title) url st
      = .cont { applyRestart st with
          frontier := st.frontier.add_url finalUrl st.now } := by
    simp [tryBody, hpdf, hne]
  rw [hred]
  refine ⟨rfl, by simp [TryResult.state], by simp [TryResult.state],
    by simp [TryResult.state], fun hk => ?_⟩
  simpa [TryResult.state] using add_url_mem_of_not_knows st.frontier finalUrl st.now hk

theorem c4_witness :
    isPdfUrl "https://a.com/x" = false
    ∧ ("https://a.com/y" : String) ≠ "https://a.com/x"
    ∧ (initState ["https://a.com/x"]).frontier.knows "https://a.com/y" = false
    ∧ ((tryBody false "https://a.com/x" .ok (.exn "u")
        (.resp 200 none none "https://a.com/y" [] "t" none)
        "https://a.com/x" (initState ["https://a.com/x"])).state).doc_batch = []
    ∧ FrontierEntry.mk "https://a.com/y" 0
        ∈ ((tryBody false "https://a.com/x" .ok (.exn "u")
            (.resp 200 none none "https://a.com/y" [] "t" none)
            "https://a.com/x" (initState ["https://a.com/x"])).state).frontier.queue := by
  have h := c4_redirect_mismatch false "https://a.com/x" "https://a.com/x" "https://a.com/y"
    (.exn "u") 200 none none [] "t" none (initState ["https://a.com/x"])
    (by decide) (by decide)
  exact ⟨by decide, by decide, by decide, h.2.1.trans (by decide), h.2.2.2.2 (by decide)⟩

/-- C8: any uncaught exception while processing one URL — from the
reachability probe, from the PDF direct-GET path (including
`read_pdf_file`), or from the rendered path (including link extraction and
`web_html_cleanup`) — is absorbed by the `except` handler: the fault is
recorded as `last_error`, the rendering session is torn down, a fresh
session is scheduled, and nothing else of the crawl state changes, so the
loop carries on with the next frontier entry. -/
theorem c8_exception_recovery (recursive : Bool) (base_url url e : String)
    (batch_size : Nat) (bp : ProbeOutcome) (bpd : PdfGetOutcome) (br : RenderOutcome)
    (st : CrawlState)
    (hexn : bp = .fail e
      ∨ (bp = .ok ∧ isPdfUrl url = true ∧ bpd = .exn e)
      ∨ (bp = .ok ∧ isPdfUrl url = false ∧ br = .exn e)) :
    (iterBody recursive base_url batch_size bp bpd br url st).last_error
        = some ("Failed to fetch '" ++ url ++ "': " ++ e)
    ∧ (iterBody recursive base_url batch_size bp bpd br url st).playwrightOpen = false
    ∧ (iterBody recursive base_url batch_size bp bpd br url st).restart_playwright = true
    ∧ (iterBody recursive base_url batch_size bp bpd br url st).frontier = st.frontier
    ∧ (iterBody recursive base_url batch_size bp bpd br url st).doc_batch = st.doc_batch
    ∧ (iterBody recursive base_url batch_size bp bpd br url st).yielded = st.yielded := by
  rcases hexn with h | ⟨h1, h2, h3⟩ | ⟨h1, h2, h3⟩
  · subst h
    simp [iterBody, tryBody]
  · subst h1; subst h3
    simp [iterBody, tryBody, h2]
  · subst h1; subst h3
    simp [iterBody, tryBody, h2]

theorem c8_witness :
    ((.fail "boom" : ProbeOutcome) = .fail "boom"
        ∨ ((.fail "boom" : ProbeOutcome) = .ok ∧ isPdfUrl "https://a.com/x" = true
            ∧ (.exn "u" : PdfGetOutcome) = .exn "boom")
        ∨ ((.fail "boom" : ProbeOutcome) = .ok ∧ isPdfUrl "https://a.com/x" = false
            ∧ (.exn "u" : RenderOutcome) = .exn "boom"))
    ∧ (iterBody false "https://a.com/x" 10 (.fail "boom") (.exn "u") (.exn "u")
        "https://a.com/x" (initState ["https://a.com/x"])).last_error
        = some "Failed to fetch 'https://a.com/x': boom"
    ∧ (iterBody false "https://a.com/x" 10 (.fail "boom") (.exn "u") (.exn "u")
        "https://a.com/x" (initState ["https://a.com/x"])).playwrightOpen = false
    ∧ (iterBody false "https://a.com/x" 10 (.fail "boom") (.exn "u") (.exn "u")
        "https://a.com/x" (initState ["https://a.com/x"])).restart_playwright = true := by
  have h := c8_exception_recovery false "https://a.com/x" "https://a.com/x" "boom" 10
    (.fail "boom") (.exn "u") (.exn "u") (initState ["https://a.com/x"]) (Or.inl rfl)
  exact ⟨Or.inl rfl, h.1, h.2.1, h.2.2.1⟩

/-- C5 (amended): the PDF direct-GET path classifies by status code with
`429` routed to frontier backoff (defaulting to 5 when no `Retry-After`
header is present) and the URL re-queued rather than dropped, any status
other than exactly `200` and `429` recorded as `last_error` with no
Document, and exactly `200` — not every 2xx — appending a Document built
from the extracted text, metadata and `Last-Modified` header. -/
theorem c5_pdf_status_classification (recursive : Bool) (base_url url : String)
    (br : RenderOutcome) (status : Nat) (retryAfter : Option Nat)
    (lastModified : Option String) (text : String) (metadata : List (String × String))
    (st : CrawlState) (hpdf : isPdfUrl url = true) :
    (status = 429 →
      (tryBody recursive base_url .ok (.resp status retryAfter lastModified text metadata)
          br url st).isCont = true
      ∧ ((tryBody recursive base_url .ok (.resp status retryAfter lastModified text metadata)
          br url st).state).doc_batch = st.doc_batch
      ∧ ((tryBody recursive base_url .ok (.resp status retryAfter lastModified text metadata)
          br url st).state).last_error = st.last_error
      ∧ ((tryBody recursive base_url .ok (.resp status retryAfter lastModified text metadata)
          br url st).state).frontier
          = st.frontier.handle_ratelimit url (retryAfter.getD 5) st.now
      ∧ FrontierEntry.mk url (st.now + retryAfter.getD 5)
          ∈ ((tryBody recursive base_url .ok
              (.resp status retryAfter lastModified text metadata)
              br url st).state).frontier.queue)
    ∧ (status ≠ 429 → status ≠ 200 →
      (tryBody recursive base_url .ok (.resp status retryAfter lastModified text metadata)
          br url st).isCont = true
      ∧ ((tryBody recursive base_url .ok (.resp status retryAfter lastModified text metadata)
          br url st).state).doc_batch = st.doc_batch
      ∧ ((tryBody recursive base_url .ok (.resp status retryAfter lastModified text metadata)
          br url st).state).frontier = st.frontier
      ∧ ((tryBody recursive base_url .ok (.resp status retryAfter lastModified text metadata)
          br url st).state).last_error
          = some ("Failed to fetch '" ++ url ++ "': " ++ toString status))
    ∧ (status = 200 →
      (tryBody recursive base_url .ok (.resp status retryAfter lastModified text metadata)
          br url st).isCont = true
      ∧ ((tryBody recursive base_url .ok (.resp status retryAfter lastModified text metadata)
          br url st).state).doc_batch
          = st.doc_batch ++ [pdfDocument url text metadata lastModified]
      ∧ ((tryBody recursive base_url .ok (.resp status retryAfter lastModified text metadata)
          br url st).state).last_error = st.last_error
      ∧ ((tryBody recursive base_url .ok (.resp status retryAfter lastModified text metadata)
          br url st).state).frontier = st.frontier) := by
  refine ⟨fun h429 => ?_, fun hn429 hn200 => ?_, fun h200 => ?_⟩
  · subst h429
    have hred : tryBody recursive base_url .ok
        (.resp 429 retryAfter lastModified text metadata) br url st
        = .cont { applyRestart st with
            frontier := st.frontier.handle_ratelimit url (retryAfter.getD 5) st.now } := by
      simp [tryBody, hpdf]
    rw [hred]
    refine ⟨rfl, by simp [TryResult.state], by simp [TryResult.state],
      by simp [TryResult.state], ?_⟩
    simpa [TryResult.state] using
      (handle_ratelimit_requeues st.frontier url (retryAfter.getD 5) st.now).1
  · have hred : tryBody recursive base_url .ok
        (.resp status retryAfter lastModified text metadata) br url st
        = .cont { applyRestart st with
            last_error := some ("Failed to fetch '" ++ url ++ "': " ++ toString status) } := by
      simp [tryBody, hpdf, hn429, hn200]
    rw [hred]
    exact ⟨rfl, by simp [TryResult.state], by simp [TryResult.state],
      by simp [TryResult.state]⟩
  · subst h200
    have hred : tryBody recursive base_url .ok
        (.resp 200 retryAfter lastModified text metadata) br url st
        = .cont { applyRestart st with
            doc_batch := st.doc_batch ++ [pdfDocument url text metadata lastModified] } := by
      simp [tryBody, hpdf]
    rw [hred]
    exact ⟨rfl, by simp [TryResult.state], by simp [TryResult.state],
      by simp [TryResult.state]⟩

theorem c5_witness :
    isPdfUrl "https://a.com/f.pdf" = true
    ∧ FrontierEntry.mk "https://a.com/f.pdf" 2
        ∈ ((tryBody false "https://a.com/f.pdf" .ok (.resp 429 (some 2) none "txt" [])
            (.exn "u") "https://a.com/f.pdf" (initState ["https://a.com/f.pdf"])).state).frontier.queue
    ∧ ((tryBody false "https://a.com/f.pdf" .ok (.resp 201 none none "txt" [])
        (.exn "u") "https://a.com/f.pdf" (initState ["https://a.com/f.pdf"])).state).last_error
        = some "Failed to fetch 'https://a.com/f.pdf': 201"
    ∧ ((tryBody false "https://a.com/f.pdf" .ok (.resp 200 none (some "LM") "txt" [])
        (.exn "u") "https://a.com/f.pdf" (initState ["https://a.com/f.pdf"])).state).doc_batch
        = [pdfDocument "https://a.com/f.pdf" "txt" [] (some "LM")] := by
  have h429 := (c5_pdf_status_classification false "https://a.com/f.pdf" "https://a.com/f.pdf"
    (.exn "u") 429 (some 2) none "txt" [] (initState ["https://a.com/f.pdf"])
    (by decide)).1 rfl
  have h201 := (c5_pdf_status_classification false "https://a.com/f.pdf" "https://a.com/f.pdf"
    (.exn "u") 201 none none "txt" [] (initState ["https://a.com/f.pdf"])
    (by decide)).2.1 (by decide) (by decide)
  have h200 := (c5_pdf_status_classification false "https://a.com/f.pdf" "https://a.com/f.pdf"
    (.exn "u") 200 none (some "LM") "txt" [] (initState ["https://a.com/f.pdf"])
    (by decide)).2.2 rfl
  refine ⟨by decide, ?_, ?_, ?_⟩
  · simpa using h429.2.2.2.2
  · exact h201.2.2.2
  · exact h200.2.1.trans (by decide)

/-- Membership in `insertIfAbsent`. -/
theorem mem_insertIfAbsent (acc : List String) (x l : String) :
    l ∈ insertIfAbsent acc x ↔ l ∈ acc ∨ l = x := by
  unfold insertIfAbsent
  split
  · rename_i hc
    simp at hc
    constructor
    · exact Or.inl
    · rintro (h | rfl)
      · exact h
      · exact hc
  · simp

/-- Membership in one step of the anchor loop. -/
theorem mem_linkStep (base_url url : String) (sip : Bool) (acc : List String)
    (h : Option String) (link : String) :
    link ∈ linkStep base_url url sip acc h
      ↔ link ∈ acc
        ∨ ∃ href, h = some href ∧ href ≠ ""
            ∧ normalizeHref url sip href = link
            ∧ netlocOf link = netlocOf url
            ∧ strContains2 link base_url = true := by
  cases h with
  | none => simp [linkStep]
  | some href =>
    by_cases he : href = ""
    · simp [linkStep, he]
    · simp only [linkStep, if_neg he]
      by_cases hc : (netlocOf (normalizeHref url sip href) = netlocOf url
          && strContains2 (normalizeHref url sip href) base_url) = true
      · rw [if_pos hc]
        rw [Bool.and_eq_true] at hc
        have hnet := of_decide_eq_true hc.1
        rw [mem_insertIfAbsent]
        constructor
        · rintro (hm | rfl)
          · exact Or.inl hm
          · exact Or.inr ⟨href, rfl, he, rfl, hnet, hc.2⟩
        · rintro (hm | ⟨href', heq, hne, hres, hnet', hsub'⟩)
          · exact Or.inl hm
          · injection heq with hh
            subst hh
            right
            exact hres.symm
      · rw [if_neg hc]
        constructor
        · exact Or.inl
        · rintro (hm | ⟨href', heq, hne, hres, hnet', hsub'⟩)
          · exact hm
          · exfalso
            apply hc
            injection heq with hh
            subst hh
            rw [hres]
            simp [hnet', hsub']

/-- Membership in the anchor fold, over a general accumulator. -/
theorem mem_foldl_linkStep (base_url url : String) (sip : Bool) :
    ∀ (hrefs : List (Option String)) (acc : List String) (link : String),
      link ∈ hrefs.foldl (linkStep base_url url sip) acc
        ↔ link ∈ acc
          ∨ ∃ href, some href ∈ hrefs ∧ href ≠ ""
              ∧ normalizeHref url sip href = link
              ∧ netlocOf link = netlocOf url
              ∧ strContains2 link base_url = true := by
  intro hrefs
  induction hrefs with
  | nil => intro acc link; simp
  | cons h hs ih =>
    intro acc link
    rw [List.foldl_cons, ih, mem_linkStep]
    constructor
    · rintro ((hm | ⟨href, heq, rest⟩) | ⟨href, hmem, rest⟩)
      · exact Or.inl hm
      · exact Or.inr ⟨href, by simp [heq], rest⟩
      · exact Or.inr ⟨href, List.mem_cons_of_mem _ hmem, rest⟩
    · rintro (hm | ⟨href, hmem, rest⟩)
      · exact Or.inl (Or.inl hm)
      · rcases List.mem_cons.mp hmem with heq | hmem'
        · exact Or.inl (Or.inr ⟨href, heq.symm, rest⟩)
        · exact Or.inr ⟨href, hmem', rest⟩

/-- A freshly added URL is known to the frontier. -/
theorem knows_add_url_self (f : URLFrontier) (u : String) (now : Nat) :
    (f.add_url u now).knows u = true := by
  unfold URLFrontier.add_url URLFrontier.knows
  split
  · rename_i hc
    exact hc
  · simp

/-- `add_url` never forgets a known URL. -/
theorem knows_mono_add (f : URLFrontier) (u v : String) (now : Nat)
    (h : f.knows u = true) : (f.add_url v now).knows u = true := by
  unfold URLFrontier.add_url
  split
  · exact h
  · unfold URLFrontier.knows at h ⊢
    simp at h ⊢
    rcases h with h | ⟨x, hx, hux⟩
    · exact Or.inl h
    · exact Or.inr (Or.inl ⟨x, hx, hux⟩)

/-- Submitting a list of links leaves each of them (and everything already
known) known to the frontier. -/
theorem knows_foldl_add (now : Nat) :
    ∀ (links : List String) (f : URLFrontier) (u : String),
      (f.knows u = true ∨ u ∈ links) →
      ((links.foldl (fun f l => f.add_url l now) f).knows u) = true := by
  intro links
  induction links with
  | nil =>
    intro f u h
    rcases h with h | h
    · exact h
    · cases h
  | cons a as ih =>
    intro f u h
    rw [List.foldl_cons]
    apply ih
    rcases h with h | h
    · exact Or.inl (knows_mono_add f u a now h)
    · rcases List.mem_cons.mp h with rfl | h'
      · exact Or.inl (knows_add_url_self f u now)
      · exact Or.inr h'

/-- A rate-limit signal never makes the frontier forget a known URL. -/
theorem knows_handle_ratelimit (f : URLFrontier) (u v : String) (r now : Nat)
    (h : f.knows u = true) : (f.handle_ratelimit v r now).knows u = true := by
  unfold URLFrontier.handle_ratelimit
  unfold URLFrontier.knows at h ⊢
  by_cases huv : u = v
  · subst huv
    simp
  · simp at h ⊢
    rcases h with h | ⟨x, hx, hux⟩
    · exact Or.inl ⟨h, huv⟩
    · exact Or.inr (Or.inl ⟨x, hx, by rw [hux]; exact huv, hux⟩)

/-- In recursive mode `addLinks` leaves every extracted link known to the
frontier. -/
theorem addLinks_knows_links (base_url url : String) (hrefs : List (Option String))
    (st : CrawlState) (link : String)
    (hm : link ∈ get_internal_links base_url url hrefs true) :
    ((addLinks true base_url url hrefs st).frontier).knows link = true := by
  unfold addLinks
  simp
  exact knows_foldl_add st.now _ _ _ (Or.inr hm)

/-- C6 (amended): a discovered anchor href, after normalisation and
resolution against the current page URL, is submitted to the Frontier iff
its netloc equals the **current page's** netloc and it contains the base
URL as a substring; in particular every kept link's host equals the
current page's host, and in recursive mode every kept link really is
submitted to the frontier. -/
theorem c6_link_scoping (base_url url link : String) (hrefs : List (Option String)) :
    (link ∈ get_internal_links base_url url hrefs true
      ↔ ∃ href, some href ∈ hrefs ∧ href ≠ ""
          ∧ normalizeHref url true href = link
          ∧ netlocOf link = netlocOf url
          ∧ strContains2 link base_url = true)
    ∧ (link ∈ get_internal_links base_url url hrefs true →
        netlocOf link = netlocOf url)
    ∧ (∀ st : CrawlState, link ∈ get_internal_links base_url url hrefs true →
        ((addLinks true base_url url hrefs st).frontier).knows link = true) := by
  have hiff := mem_foldl_linkStep base_url url true hrefs [] link
  simp only [List.not_mem_nil, false_or] at hiff
  refine ⟨hiff, fun hm => ?_, fun st hm => ?_⟩
  · obtain ⟨href, _, _, _, hnet, _⟩ := hiff.mp hm
    exact hnet
  · exact addLinks_knows_links base_url url hrefs st link hm

theorem c6_witness :
    ("https://a.com/p" : String) ∈ get_internal_links "https://a.com/"
        "https://a.com/" [some "https://a.com/p"] true
    ∧ netlocOf "https://a.com/p" = netlocOf "https://a.com/" := by
  have h := c6_link_scoping "https://a.com/" "https://a.com/" "https://a.com/p"
    [some "https://a.com/p"]
  refine ⟨by decide, h.2.1 (by decide)⟩

/-- C6, counterexample to the claim as stated: with seed
`https://a.com/`, a redirect moves the crawl to host `b.com`; a link on
that page whose host is `b.com` (different from the seed's host `a.com`)
but which contains the base URL as a substring is submitted to the
Frontier and even visited, so origin-scoping relative to the seed's host
is not total. -/
theorem c6_counterexample :
    "https://b.com/y?ref=https://a.com/"
        ∈ (load_from_state true 10 ["https://a.com/"] (fun _ _ => .ok)
            (fun _ _ => .exn "u")
            (fun _ u =>
              if u = "https://a.com/" then
                .resp 200 none none "https://b.com/x" [] "t" none
              else if u = "https://b.com/x" then
                .resp 200 none none u [some "https://b.com/y?ref=https://a.com/"] "t" none
              else .resp 200 none none u [] "t" none) 10).state.frontier.visited
    ∧ netlocOf "https://b.com/y?ref=https://a.com/" ≠ netlocOf "https://a.com/" := by
  constructor
  · decide
  · decide

/-- C7 (amended): a rendered page whose status code's leading digit is 4
or 5 produces no Document and is recorded as a recoverable skip, with a
429 additionally routed to the frontier's rate-limit handling; however
the Link Extractor runs *before* the status check, so in recursive mode
the error page's internal links are still submitted to the Frontier. -/
theorem c7_error_page_no_document (recursive : Bool) (base_url url : String)
    (bpd : PdfGetOutcome) (status : Nat) (retryAfter : Option Nat)
    (lastModified : Option String) (hrefs : List (Option String))
    (cleanedText : String) (title : Option String) (st : CrawlState)
    (hpdf : isPdfUrl url = false)
    (hld : leadingDigit status = 4 ∨ leadingDigit status = 5) :
    (tryBody recursive base_url .ok bpd
        (.resp status retryAfter lastModified url hrefs cleanedText title)
        url st).isCont = true
    ∧ ((tryBody recursive base_url .ok bpd
        (.resp status retryAfter lastModified url hrefs cleanedText title)
        url st).state).doc_batch = st.doc_batch
    ∧ ((tryBody recursive base_url .ok bpd
        (.resp status retryAfter lastModified url hrefs cleanedText title)
        url st).state).yielded = st.yielded
    ∧ ((tryBody recursive base_url .ok bpd
        (.resp status retryAfter lastModified url hrefs cleanedText title)
        url st).state).last_error
        = some ("Skipped indexing " ++ url ++ " due to HTTP "
            ++ toString status ++ " response")
    ∧ (recursive = true →
        ∀ link ∈ get_internal_links base_url url hrefs true,
          ((tryBody recursive base_url .ok bpd
            (.resp status retryAfter lastModified url hrefs cleanedText title)
            url st).state).frontier.knows link = true)
    ∧ (status = 429 →
        FrontierEntry.mk url (st.now + retryAfter.getD 5)
          ∈ ((tryBody recursive base_url .ok bpd
              (.resp status retryAfter lastModified url hrefs cleanedText title)
              url st).state).frontier.queue) := by
  have hcond : (leadingDigit status = 4 || leadingDigit status = 5) = true := by
    rcases hld with h | h <;> simp [h]
  by_cases h429 : status = 429
  · subst h429
    have hred : tryBody recursive base_url .ok bpd
        (.resp 429 retryAfter lastModified url hrefs cleanedText title) url st
        = .cont { addLinks recursive base_url url hrefs (applyRestart st) with
            last_error := some ("Skipped indexing " ++ url ++ " due to HTTP "
              ++ toString (429 : Nat) ++ " response"),
            frontier := ((addLinks recursive base_url url hrefs
              (applyRestart st)).frontier).handle_ratelimit url (retryAfter.getD 5)
              st.now } := by
      simp [tryBody, hpdf, hcond]
    rw [hred]
    refine ⟨rfl, by simp [TryResult.state], by simp [TryResult.state],
      by simp [TryResult.state], fun hrec link hm => ?_, fun _ => ?_⟩
    · subst hrec
      simp only [TryResult.state]
      exact knows_handle_ratelimit _ _ _ _ _
        (addLinks_knows_links base_url url hrefs (applyRestart st) link hm)
    · simp only [TryResult.state]
      exact (handle_ratelimit_requeues _ url (retryAfter.getD 5) st.now).1
  · have hred : tryBody recursive base_url .ok bpd
        (.resp status retryAfter lastModified url hrefs cleanedText title) url st
        = .cont { addLinks recursive base_url url hrefs (applyRestart st) with
            last_error := some ("Skipped indexing " ++ url ++ " due to HTTP "
              ++ toString status ++ " response") } := by
      simp [tryBody, hpdf, hcond, h429]
    rw [hred]
    refine ⟨rfl, by simp [TryResult.state], by simp [TryResult.state],
      by simp [TryResult.state], fun hrec link hm => ?_, fun he => absurd he h429⟩
    subst hrec
    simp only [TryResult.state]
    exact addLinks_knows_links base_url url hrefs (applyRestart st) link hm

theorem c7_witness :
    isPdfUrl "https://a.com/" = false
    ∧ (leadingDigit 404 = 4 ∨ leadingDigit 404 = 5)
    ∧ ((tryBody true "https://a.com/" .ok (.exn "u")
        (.resp 404 none none "https://a.com/" [some "https://a.com/page2"] "t" none)
        "https://a.com/" (initState ["https://a.com/"])).state).doc_batch = []
    ∧ ((tryBody true "https://a.com/" .ok (.exn "u")
        (.resp 404 none none "https://a.com/" [some "https://a.com/page2"] "t" none)
        "https://a.com/" (initState ["https://a.com/"])).state).frontier.knows
        "https://a.com/page2" = true := by
  have h := c7_error_page_no_document true "https://a.com/" "https://a.com/" (.exn "u")
    404 none none [some "https://a.com/page2"] "t" none (initState ["https://a.com/"])
    (by decide) (Or.inl (by decide))
  exact ⟨by decide, Or.inl (by decide), h.2.1.trans (by decide),
    h.2.2.2.2.1 rfl "https://a.com/page2" (by decide)⟩

/-- C7, counterexample to the claim as stated: a recursive crawl whose
only page renders with HTTP 404 yields no Document, yet the link
discovered on that error page enters the Frontier and is itself visited —
an error page does contribute links to the Frontier. -/
theorem c7_counterexample :
    (load_from_state true 10 ["https://a.com/"] (fun _ _ => .ok) (fun _ _ => .exn "u")
        (fun _ u =>
          if u = "https://a.com/" then
            .resp 404 none none u [some "https://a.com/page2"] "t" none
          else .resp 404 none none u [] "t" none) 10).batches = []
    ∧ "https://a.com/page2"
        ∈ (load_from_state true 10 ["https://a.com/"] (fun _ _ => .ok)
            (fun _ _ => .exn "u")
            (fun _ u =>
              if u = "https://a.com/" then
                .resp 404 none none u [some "https://a.com/page2"] "t" none
              else .resp 404 none none u [] "t" none) 10).state.frontier.visited := by
  constructor
  · decide
  · decide

/-- C5, counterexample to the claim as stated: a PDF URL answered with
HTTP 201 — a 2xx status — does *not* yield a Document: the code tests
`status_code != 200`, records the status as `last_error` and the crawl
ends fatally with zero batches. -/
theorem c5_counterexample :
    (load_from_state false 10 ["https://a.com/f.pdf"] (fun _ _ => .ok)
        (fun _ _ => .resp 201 none none "txt" []) (fun _ _ => .exn "u") 5).batches = []
    ∧ (load_from_state false 10 ["https://a.com/f.pdf"] (fun _ _ => .ok)
        (fun _ _ => .resp 201 none none "txt" []) (fun _ _ => .exn "u") 5).fatalMsg
        = some "Failed to fetch 'https://a.com/f.pdf': 201" := by
  constructor
  · decide
  · decide

/-- C2, counterexample to the claim as stated: with batch size 1, a crawl
of two PDF URLs that both answer 200 emits a *single* batch of size 2 — the
PDF path's `continue` (line 312) jumps over the batch-size check on line
377, so `ceil(k/b) = 2` batches of size 1 are not emitted and the emitted
batch exceeds the configured bound. -/
theorem c2_counterexample :
    ((load_from_state false 1 ["https://a.com/d1.pdf", "https://a.com/d2.pdf"]
        (fun _ _ => .ok) (fun _ _ => .resp 200 none (some "LM") "txt" [])
        (fun _ _ => .exn "u") 10).batches).map List.length = [2]
    ∧ (((load_from_state false 1 ["https://a.com/d1.pdf", "https://a.com/d2.pdf"]
        (fun _ _ => .ok) (fun _ _ => .resp 200 none (some "LM") "txt" [])
        (fun _ _ => .exn "u") 10).batches).length ≠ 2) := by
  constructor
  · decide
  · decide

/-- C3: on the zero-documents terminal-error path the rendering session is
*not* torn down — a crawl whose only page renders with HTTP 500 raises the
fatal error while `playwright` is still running (no `playwright.stop()` is
reached on this path), contradicting teardown-on-every-exit. -/
theorem c3_session_leak_on_terminal_error :
    (load_from_state false 10 ["https://a.com/x"] (fun _ _ => .ok) (fun _ _ => .exn "u")
        (fun _ u => .resp 500 none none u [] "t" none) 3).isFatal = true
    ∧ (load_from_state false 10 ["https://a.com/x"] (fun _ _ => .ok) (fun _ _ => .exn "u")
        (fun _ u => .resp 500 none none u [] "t" none) 3).state.playwrightOpen = true := by
  constructor
  · decide
  · decide

/-- Where a Document can come from in one `try` block: an exception leaves
the batch unchanged; a `continue` leaves it unchanged or (only on the
PDF-200 path) appends one Document whose id is PDF-dispatched; reaching
the batch-size check appends exactly one rendered Document. -/
theorem tryBody_doc_shape (recursive : Bool) (base_url : String)
    (bp : ProbeOutcome) (bpd : PdfGetOutcome) (br : RenderOutcome)
    (url : String) (st : CrawlState) :
    (∀ msg st', tryBody recursive base_url bp bpd br url st = .exn msg st' →
        st'.doc_batch = st.doc_batch)
    ∧ (∀ st', tryBody recursive base_url bp bpd br url st = .cont st' →
        st'.doc_batch = st.doc_batch
        ∨ ∃ d, isPdfUrl d.id = true ∧ st'.doc_batch = st.doc_batch ++ [d])
    ∧ (∀ st', tryBody recursive base_url bp bpd br url st = .success st' →
        ∃ d, st'.doc_batch = st.doc_batch ++ [d]) := by
  cases bp with
  | rateLimit r =>
    refine ⟨fun msg st' h => ?_, fun st' h => ?_, fun st' h => ?_⟩ <;>
      simp only [tryBody] at h <;> cases h
    simp
  | fail m =>
    refine ⟨fun msg st' h => ?_, fun st' h => ?_, fun st' h => ?_⟩ <;>
      simp only [tryBody] at h <;> cases h
    rfl
  | ok =>
    by_cases hpdf : isPdfUrl url = true
    · cases bpd with
      | exn m =>
        refine ⟨fun msg st' h => ?_, fun st' h => ?_, fun st' h => ?_⟩ <;>
          simp only [tryBody, hpdf, if_true] at h <;> cases h
        simp
      | resp s ra lm t md =>
        by_cases h429 : s = 429
        · subst h429
          refine ⟨fun msg st' h => ?_, fun st' h => ?_, fun st' h => ?_⟩ <;>
            simp only [tryBody, hpdf, if_true, if_pos rfl] at h <;> cases h
          left
          simp
        · by_cases h200 : s = 200
          · subst h200
            refine ⟨fun msg st' h => ?_, fun st' h => ?_, fun st' h => ?_⟩ <;>
              simp only [tryBody, hpdf, if_true, if_neg h429] at h <;>
              simp only [show ¬((200 : Nat) = 429) by decide, if_false,
                show ¬((200 : Nat) ≠ 200) by decide, if_true] at h <;> cases h
            right
            refine ⟨pdfDocument url t md lm, ?_, by simp⟩
            simpa [pdfDocument] using hpdf
          · refine ⟨fun msg st' h => ?_, fun st' h => ?_, fun st' h => ?_⟩ <;>
              simp only [tryBody, hpdf, if_true, if_neg h429, if_pos (by simpa using h200 :
                (s ≠ 200))] at h <;> cases h
            left
            simp
    · have hpdf' : isPdfUrl url = false := by
        cases hz : isPdfUrl url
        · rfl
        · exact absurd hz hpdf
      cases br with
      | exn m =>
        refine ⟨fun msg st' h => ?_, fun st' h => ?_, fun st' h => ?_⟩ <;>
          simp only [tryBody, hpdf', Bool.false_eq_true, if_false] at h <;> cases h
        simp
      | noResponse =>
        refine ⟨fun msg st' h => ?_, fun st' h => ?_, fun st' h => ?_⟩ <;>
          simp only [tryBody, hpdf', Bool.false_eq_true, if_false] at h <;> cases h
        left
        simp
      | resp s ra lm fu hr ct ti =>
        by_cases hfu : fu ≠ url
        · refine ⟨fun msg st' h => ?_, fun st' h => ?_, fun st' h => ?_⟩ <;>
            simp only [tryBody, hpdf', Bool.false_eq_true, if_false, if_pos hfu] at h <;>
            cases h
          left
          simp
        · by_cases hld : (leadingDigit s = 4 || leadingDigit s = 5) = true
          · by_cases h429 : s = 429
            · subst h429
              refine ⟨fun msg st' h => ?_, fun st' h => ?_, fun st' h => ?_⟩ <;>
                simp only [tryBody, hpdf', Bool.false_eq_true, if_false, if_neg hfu,
                  hld, if_true, if_pos rfl] at h <;> cases h
              left
              simp
            · refine ⟨fun msg st' h => ?_, fun st' h => ?_, fun st' h => ?_⟩ <;>
                simp only [tryBody, hpdf', Bool.false_eq_true, if_false, if_neg hfu,
                  hld, if_true, if_neg h429] at h <;> cases h
              left
              simp
          · refine ⟨fun msg st' h => ?_, fun st' h => ?_, fun st' h => ?_⟩ <;>
              simp only [tryBody, hpdf', Bool.false_eq_true, if_false, if_neg hfu,
                hld, Bool.false_eq_true] at h <;> cases h
            exact ⟨htmlDocument url ct ti lm, by simp⟩

/-- One iteration either preserves the batching invariant (all emitted
batches full and nonempty, current batch strictly under the bound) or puts
a PDF-dispatched Document into the current batch. -/
theorem iterBody_batch_cases (recursive : Bool) (base_url : String) (batch_size : Nat)
    (bp : ProbeOutcome) (bpd : PdfGetOutcome) (br : RenderOutcome)
    (url : String) (st : CrawlState)
    (hb : 0 < batch_size)
    (hY : ∀ l ∈ st.yielded, l.length = batch_size ∧ l ≠ [])
    (hD : st.doc_batch.length < batch_size) :
    ((∀ l ∈ (iterBody recursive base_url batch_size bp bpd br url st).yielded,
        l.length = batch_size ∧ l ≠ [])
      ∧ (iterBody recursive base_url batch_size bp bpd br url st).doc_batch.length
          < batch_size)
    ∨ (∃ d, isPdfUrl d.id = true
        ∧ d ∈ (iterBody recursive base_url batch_size bp bpd br url st).doc_batch) := by
  have hshape := tryBody_doc_shape recursive base_url bp bpd br url st
  have hpres := tryBody_preserves recursive base_url bp bpd br url st
  unfold iterBody
  rcases ht : tryBody recursive base_url bp bpd br url st with ⟨msg, st'⟩ | st' | st'
  · rw [ht] at hpres
    simp only [TryResult.state] at hpres
    have hdb := hshape.1 msg st' ht
    left
    constructor
    · intro l hl
      exact hY l (by rw [← hpres.2]; exact hl)
    · show st'.doc_batch.length < batch_size
      rw [hdb]
      exact hD
  · rw [ht] at hpres
    simp only [TryResult.state] at hpres
    rcases hshape.2.1 st' ht with hdb | ⟨d, hd, hdb⟩
    · left
      constructor
      · intro l hl
        exact hY l (by rw [← hpres.2]; exact hl)
      · show st'.doc_batch.length < batch_size
        rw [hdb]
        exact hD
    · right
      exact ⟨d, hd, by rw [hdb]; simp⟩
  · rw [ht] at hpres
    simp only [TryResult.state] at hpres
    obtain ⟨d, hdb⟩ := hshape.2.2 st' ht
    have hlen : st'.doc_batch.length = st.doc_batch.length + 1 := by
      rw [hdb]; simp
    left
    show (∀ l ∈ (flushIfFull batch_size st').yielded, l.length = batch_size ∧ l ≠ [])
      ∧ (flushIfFull batch_size st').doc_batch.length < batch_size
    unfold flushIfFull
    by_cases hge : batch_size ≤ st'.doc_batch.length
    · rw [if_pos hge]
      constructor
      · intro l hl
        simp only [List.mem_append, List.mem_singleton] at hl
        rcases hl with hl | rfl
        · exact hY l (by rw [← hpres.2]; exact hl)
        · refine ⟨by omega, ?_⟩
          rw [hdb]
          simp
      · simpa using hb
    · rw [if_neg hge]
      constructor
      · intro l hl
        exact hY l (by rw [← hpres.2]; exact hl)
      · omega

/-- One iteration never loses a Document already in the current batch or
in an emitted batch. -/
theorem iterBody_docIn (recursive : Bool) (base_url : String) (batch_size : Nat)
    (bp : ProbeOutcome) (bpd : PdfGetOutcome) (br : RenderOutcome)
    (url : String) (st : CrawlState) (d : Document)
    (h : d ∈ st.doc_batch ∨ ∃ l ∈ st.yielded, d ∈ l) :
    d ∈ (iterBody recursive base_url batch_size bp bpd br url st).doc_batch
    ∨ ∃ l ∈ (iterBody recursive base_url batch_size bp bpd br url st).yielded, d ∈ l := by
  have hshape := tryBody_doc_shape recursive base_url bp bpd br url st
  have hpres := tryBody_preserves recursive base_url bp bpd br url st
  unfold iterBody
  rcases ht : tryBody recursive base_url bp bpd br url st with ⟨msg, st'⟩ | st' | st'
  · rw [ht] at hpres
    simp only [TryResult.state] at hpres
    have hdb := hshape.1 msg st' ht
    rcases h with h | ⟨l, hl, hdl⟩
    · left
      show d ∈ st'.doc_batch
      rw [hdb]
      exact h
    · right
      exact ⟨l, by rw [hpres.2]; exact hl, hdl⟩
  · rw [ht] at hpres
    simp only [TryResult.state] at hpres
    rcases h with h | ⟨l, hl, hdl⟩
    · left
      rcases hshape.2.1 st' ht with hdb | ⟨d', _, hdb⟩
      · show d ∈ st'.doc_batch
        rw [hdb]
        exact h
      · show d ∈ st'.doc_batch
        rw [hdb]
        exact List.mem_append_left _ h
    · right
      exact ⟨l, by rw [hpres.2]; exact hl, hdl⟩
  · rw [ht] at hpres
    simp only [TryResult.state] at hpres
    obtain ⟨d', hdb⟩ := hshape.2.2 st' ht
    show d ∈ (flushIfFull batch_size st').doc_batch
      ∨ ∃ l ∈ (flushIfFull batch_size st').yielded, d ∈ l
    unfold flushIfFull
    by_cases hge : batch_size ≤ st'.doc_batch.length
    · rw [if_pos hge]
      rcases h with h | ⟨l, hl, hdl⟩
      · right
        refine ⟨st'.doc_batch, by simp, ?_⟩
        rw [hdb]
        exact List.mem_append_left _ h
      · right
        refine ⟨l, ?_, hdl⟩
        simp only [List.mem_append, List.mem_singleton]
        left
        rw [hpres.2]
        exact hl
    · rw [if_neg hge]
      rcases h with h | ⟨l, hl, hdl⟩
      · left
        rw [hdb]
        exact List.mem_append_left _ h
      · right
        exact ⟨l, by rw [hpres.2]; exact hl, hdl⟩

/-- What `finishCrawl` can finish with: either the emitted batches alone
(empty final batch) or those plus the non-empty final flush. -/
theorem finishCrawl_finished_shape (st : CrawlState) (bs : List (List Document))
    (st' : CrawlState) (h : finishCrawl st = .finished bs st') :
    (st.doc_batch = [] ∧ bs = st.yielded)
    ∨ (st.doc_batch ≠ [] ∧ bs = st.yielded ++ [st.doc_batch]) := by
  simp only [finishCrawl] at h
  by_cases hempty : st.doc_batch.isEmpty = true
  · rw [if_pos hempty] at h
    split at h
    · cases h
      exact Or.inl ⟨List.isEmpty_iff.mp hempty, rfl⟩
    · split at h <;> cases h
  · rw [if_neg hempty] at h
    rw [if_pos rfl] at h
    cases h
    refine Or.inr ⟨?_, rfl⟩
    intro hnil
    rw [hnil] at hempty
    simp at hempty

/-- Documents are never dropped: anything in the current batch or an
emitted batch when the crawl finishes appears in one of the final
batches. -/
theorem crawlLoop_docIn (recursive : Bool) (base_url : String) (batch_size : Nat)
    (probe : Nat → String → ProbeOutcome) (pdfGet : Nat → String → PdfGetOutcome)
    (render : Nat → String → RenderOutcome) :
    ∀ (fuel : Nat) (st : CrawlState) (bs : List (List Document)) (st' : CrawlState)
      (d : Document),
      crawlLoop recursive base_url batch_size probe pdfGet render fuel st
          = .finished bs st' →
      (d ∈ st.doc_batch ∨ ∃ l ∈ st.yielded, d ∈ l) →
      ∃ l ∈ bs, d ∈ l := by
  intro fuel
  induction fuel with
  | zero =>
    intro st bs st' d h
    cases h
  | succ fuel ih =>
    intro st bs st' d h hin
    rw [crawlLoop] at h
    split at h
    · split at h
      · exact ih { st with now := st.now + 1 } bs st' d h hin
      · rename_i url f' heq
        exact ih _ bs st' d h (iterBody_docIn recursive base_url batch_size
          (probe (st.now + 1) url) (pdfGet (st.now + 1) url) (render (st.now + 1) url)
          url { st with frontier := f', now := st.now + 1 } d hin)
    · rcases finishCrawl_finished_shape st bs st' h with ⟨hnil, rfl⟩ | ⟨hne, rfl⟩
      · rcases hin with hin | ⟨l, hl, hdl⟩
        · rw [hnil] at hin
          cases hin
        · exact ⟨l, hl, hdl⟩
      · rcases hin with hin | ⟨l, hl, hdl⟩
        · exact ⟨st.doc_batch, by simp, hin⟩
        · exact ⟨l, by simp [hl], hdl⟩

/-- The workhorse behind the amended batching claim: if all final batches
consist only of rendered (non-PDF-dispatched) Documents, the batching
invariant carries through the loop. -/
theorem crawlLoop_batching (recursive : Bool) (base_url : String) (batch_size : Nat)
    (probe : Nat → String → ProbeOutcome) (pdfGet : Nat → String → PdfGetOutcome)
    (render : Nat → String → RenderOutcome) (hb : 0 < batch_size) :
    ∀ (fuel : Nat) (st : CrawlState),
      (∀ l ∈ st.yielded, l.length = batch_size ∧ l ≠ []) →
      st.doc_batch.length < batch_size →
      ∀ (bs : List (List Document)) (st' : CrawlState),
        crawlLoop recursive base_url batch_size probe pdfGet render fuel st
            = .finished bs st' →
        (∀ l ∈ bs, ∀ d ∈ l, isPdfUrl d.id = false) →
        (∀ l ∈ bs.dropLast, l.length = batch_size)
        ∧ (∀ l ∈ bs, l.length ≤ batch_size ∧ l ≠ []) := by
  intro fuel
  induction fuel with
  | zero =>
    intro st hY hD bs st' h
    cases h
  | succ fuel ih =>
    intro st hY hD bs st' h hnopdf
    rw [crawlLoop] at h
    split at h
    · split at h
      · exact ih { st with now := st.now + 1 } hY hD bs st' h hnopdf
      · rename_i url f' heq
        rcases iterBody_batch_cases recursive base_url batch_size
            (probe (st.now + 1) url) (pdfGet (st.now + 1) url) (render (st.now + 1) url)
            url { st with frontier := f', now := st.now + 1 } hb hY hD
            with ⟨hY', hD'⟩ | ⟨d, hpdfd, hd⟩
        · exact ih _ hY' hD' bs st' h hnopdf
        · exfalso
          obtain ⟨l, hl, hdl⟩ := crawlLoop_docIn recursive base_url batch_size
            probe pdfGet render fuel _ bs st' d h (Or.inl hd)
          have hfalse := hnopdf l hl d hdl
          rw [hfalse] at hpdfd
          cases hpdfd
    · rcases finishCrawl_finished_shape st bs st' h with ⟨hnil, rfl⟩ | ⟨hne, rfl⟩
      · refine ⟨fun l hl => (hY l ((List.dropLast_sublist _).subset hl)).1,
          fun l hl => ?_⟩
        have := hY l hl
        exact ⟨le_of_eq this.1, this.2⟩
      · constructor
        · intro l hl
          rw [List.dropLast_concat] at hl
          exact (hY l hl).1
        · intro l hl
          simp only [List.mem_append, List.mem_singleton] at hl
          rcases hl with hl | rfl
          · have := hY l hl
            exact ⟨le_of_eq this.1, this.2⟩
          · exact ⟨le_of_lt hD, hne⟩

/-- Arithmetic of batch counts: a list of nonempty batches, all of size
`b` except possibly a smaller last one, has exactly `⌈total/b⌉` many. -/
theorem batch_count_eq (b : Nat) (hb : 0 < b) (bs : List (List Document))
    (hfull : ∀ l ∈ bs.dropLast, l.length = b)
    (hall : ∀ l ∈ bs, l.length ≤ b ∧ l ≠ []) :
    bs.length = ((bs.map List.length).sum + b - 1) / b := by
  have hsumconst : ∀ (M : List (List Document)), (∀ l ∈ M, l.length = b) →
      (M.map List.length).sum = b * M.length := by
    intro M
    induction M with
    | nil => intro _; simp
    | cons a as ihm =>
      intro hM
      rw [List.map_cons, List.sum_cons, hM a (List.mem_cons_self _ _),
        ihm (fun l hl => hM l (List.mem_cons_of_mem _ hl)), List.length_cons,
        Nat.mul_succ]
      omega
  rcases List.eq_nil_or_concat bs with rfl | ⟨L, x, rfl⟩
  · simp [Nat.div_eq_of_lt (by omega : b - 1 < b)]
  · simp only [List.concat_eq_append] at hfull hall ⊢
    have hLfull : ∀ l ∈ L, l.length = b := by
      intro l hl
      exact hfull l (by rw [List.dropLast_concat]; exact hl)
    have hx := hall x (by simp)
    have hxpos : 0 < x.length := List.length_pos.mpr hx.2
    have hsum : ((L ++ [x]).map List.length).sum = b * L.length + x.length := by
      rw [List.map_append, List.sum_append, hsumconst L hLfull]
      simp
    have h1 : ((L ++ [x]).map List.length).sum + b - 1
        = b * L.length + b + (x.length - 1) := by
      omega
    rw [h1]
    have h2 : b * L.length + b + (x.length - 1) = b * (L.length + 1) + (x.length - 1) := by
      rw [Nat.mul_succ]
    rw [h2, Nat.mul_add_div hb, Nat.div_eq_of_lt (by omega : x.length - 1 < b)]
    simp

/-- C2 (amended): for crawls in which every emitted Document was produced
by the rendered (non-PDF) path, `load_from_state` with batch size `b > 0`
emits exactly `⌈k/b⌉` nonempty batches for `k` total Documents, every
batch except possibly the last has size exactly `b`, and no batch exceeds
`b`.  (PDF-path Documents bypass the batch-size check via the `continue`
on line 312, which is why the restriction is needed — see the
counterexample.) -/
theorem c2_batch_emission (recursive : Bool) (batch_size : Nat)
    (to_visit : List String)
    (probe : Nat → String → ProbeOutcome) (pdfGet : Nat → String → PdfGetOutcome)
    (render : Nat → String → RenderOutcome) (fuel : Nat)
    (hb : 0 < batch_size) :
    ∀ (bs : List (List Document)) (st' : CrawlState),
      load_from_state recursive batch_size to_visit probe pdfGet render fuel
          = .finished bs st' →
      (∀ l ∈ bs, ∀ d ∈ l, isPdfUrl d.id = false) →
      (∀ l ∈ bs.dropLast, l.length = batch_size)
      ∧ (∀ l ∈ bs, l.length ≤ batch_size ∧ l ≠ [])
      ∧ bs.length = ((bs.map List.length).sum + batch_size - 1) / batch_size := by
  intro bs st' h hnopdf
  unfold load_from_state at h
  split at h
  · cases h
  · have hmain := crawlLoop_batching recursive (to_visit.headD "") batch_size
      probe pdfGet render hb fuel (initState to_visit) (by simp [initState])
      (by simpa [initState] using hb) bs st' h hnopdf
    exact ⟨hmain.1, hmain.2, batch_count_eq batch_size hb bs hmain.1 hmain.2⟩

theorem c2_batch_emission_witness :
    (0 : Nat) < 2
    ∧ (load_from_state false 2 ["https://a.com/p1", "https://a.com/p2", "https://a.com/p3"]
        (fun _ _ => .ok) (fun _ _ => .exn "u")
        (fun _ u => .resp 200 none none u [] "text" none) 9).batches.map List.length
        = [2, 1]
    ∧ ((load_from_state false 2 ["https://a.com/p1", "https://a.com/p2", "https://a.com/p3"]
        (fun _ _ => .ok) (fun _ _ => .exn "u")
        (fun _ u => .resp 200 none none u [] "text" none) 9).batches).length
        = ((((load_from_state false 2 ["https://a.com/p1", "https://a.com/p2", "https://a.com/p3"]
            (fun _ _ => .ok) (fun _ _ => .exn "u")
            (fun _ u => .resp 200 none none u [] "text" none) 9).batches).map
            List.length).sum + 2 - 1) / 2 := by
  have hrun : load_from_state false 2 ["https://a.com/p1", "https://a.com/p2", "https://a.com/p3"]
      (fun _ _ => .ok) (fun _ _ => .exn "u")
      (fun _ u => .resp 200 none none u [] "text" none) 9
      = .finished
        ((load_from_state false 2 ["https://a.com/p1", "https://a.com/p2", "https://a.com/p3"]
          (fun _ _ => .ok) (fun _ _ => .exn "u")
          (fun _ u => .resp 200 none none u [] "text" none) 9).batches)
        ((load_from_state false 2 ["https://a.com/p1", "https://a.com/p2", "https://a.com/p3"]
          (fun _ _ => .ok) (fun _ _ => .exn "u")
          (fun _ u => .resp 200 none none u [] "text" none) 9).state) := by rfl
  have h := c2_batch_emission false 2
    ["https://a.com/p1", "https://a.com/p2", "https://a.com/p3"]
    (fun _ _ => .ok) (fun _ _ => .exn "u")
    (fun _ u => .resp 200 none none u [] "text" none) 9 (by decide) _ _ hrun (by decide)
  exact ⟨by decide, by decide, h.2.2⟩

end WebConnector
